import Mathlib

/-!
Verification of the webpack-analyzer stats-metrics extraction engine.

The source (`extractMetrics`, `calculateChunkSize`, `getModuleType`) treats the
stats document as a dynamically typed JSON-like value.  We embed that value
space as `JVal` and translate the three functions directly.  Member access on
`null`/`undefined`, calling `.includes` on a value that has no such method,
and passing a truthy non-string to `path.extname` / `getModuleType` are the
operations that throw in JS; they are modelled in the `Except Unit` monad, and
`extractMetrics` catches at the boundary, returning the degenerate value
(modelled by `MetricsResult.failed`).

JS numbers are modelled as exact rationals represented as unreduced fractions
(`JQ`: an integer numerator over a positive integer denominator).  This is
exact for the integer byte sizes and the divisions (`/1024`, percentage
scaling) the engine performs; value-level comparisons of `JQ` go through the
cross-multiplication order `qLe`/`qLt`/`qEq`.

Modelling notes (deviations that cannot affect well-typed stats documents):
* JS implicit number coercion of truthy non-numeric values (numeric strings,
  arrays) in `+`, `>` and sort comparators is simplified: a non-number in a
  numeric position contributes 0 and fails `> 0` checks (`toNum`, `numGt0`),
  except booleans, which coerce as in JS (true = 1).
* Division by zero (JS Infinity/NaN) is modelled as 0; every division the
  engine performs has a divisor guarded nonzero (`1024`, `max(…,1)`, and
  `totalSize` under the `totalSize > 0` guard).
* `Number.prototype.toString` is exact for integer-denominator values (all
  values the engine stringifies are document literals); other fractions get a
  canonical rendering instead of JS float formatting.
* JS object key enumeration reorders integer-like keys first; `jsEntries`
  keeps list order.  Counts and the `main`/`index` lookups are unaffected.
* JS `Array.prototype.sort` is only required to sort consistently with the
  comparator; tie order is unspecified by the spec, and `sortDescBy` is one
  admissible implementation.
-/

/-! ### Exact JS numbers: unreduced fractions with a positive denominator -/

/-- A JS number as an exact rational `n / d` with `0 < d`.  Kept unreduced so
that every arithmetic operation is a plain integer computation. -/
structure JQ where
  n : Int
  d : Int
  hd : 0 < d

/-- An integer literal. -/
def intJQ (i : Int) : JQ := ⟨i, 1, by decide⟩

def qAdd (a b : JQ) : JQ := ⟨a.n * b.d + b.n * a.d, a.d * b.d, mul_pos a.hd b.hd⟩

def qSub (a b : JQ) : JQ := ⟨a.n * b.d - b.n * a.d, a.d * b.d, mul_pos a.hd b.hd⟩

def qMul (a b : JQ) : JQ := ⟨a.n * b.n, a.d * b.d, mul_pos a.hd b.hd⟩

/-- JS division; a zero divisor (JS Infinity/NaN) is modelled as 0 and is
unreachable along the engine's guarded divisions. -/
def qDiv (a b : JQ) : JQ :=
  if h : 0 < b.n then ⟨a.n * b.d, a.d * b.n, mul_pos a.hd h⟩
  else if h2 : b.n < 0 then ⟨-(a.n * b.d), a.d * (-b.n), mul_pos a.hd (by omega)⟩
  else intJQ 0

/-- The value order `n₁/d₁ ≤ n₂/d₂` by cross-multiplication (valid because
denominators are positive). -/
def qLe (a b : JQ) : Prop := a.n * b.d ≤ b.n * a.d

def qLt (a b : JQ) : Prop := a.n * b.d < b.n * a.d

instance instDecQLe (a b : JQ) : Decidable (qLe a b) := by unfold qLe; exact inferInstance

instance instDecQLt (a b : JQ) : Decidable (qLt a b) := by unfold qLt; exact inferInstance

/-- Value equality of fractions (not structural equality). -/
def qEq (a b : JQ) : Bool := a.n * b.d == b.n * a.d

/-- Is the number the value zero (the JS falsiness test for numbers). -/
def qIsZero (a : JQ) : Bool := a.n == 0

/-- JS `Math.min`. -/
def qMin (a b : JQ) : JQ := if qLe a b then a else b

/-! ### The dynamic value space -/

/-- A JavaScript value as the engine sees it: the stats document is untrusted
and any field may be any of these. -/
inductive JVal where
  | null
  | undefined
  | bool (b : Bool)
  | num (q : JQ)
  | str (s : String)
  | arr (xs : List JVal)
  | obj (fs : List (String × JVal))

/-- JS truthiness: `false`, `0`, `""`, `null`, `undefined` are falsy. -/
def truthy : JVal → Bool
  | .null => false
  | .undefined => false
  | .bool b => b
  | .num q => !(qIsZero q)
  | .str s => !(s == "")
  | .arr _ => true
  | .obj _ => true

/-- Member access `v.k`.  On objects it is the field (or `undefined` when the
key is missing); on other non-nullish values it is `undefined`, matching JS.
On `null`/`undefined` JS throws; the engine only reads fields of values that
were either checked truthy or reached through optional chaining, and for `?.`
JS yields `undefined`, which is what this total function returns. -/
def getD : JVal → String → JVal
  | .obj fs, k => ((fs.lookup k).getD JVal.undefined)
  | _, _ => .undefined

/-- JS `a || b`. -/
def jor (a b : JVal) : JVal := if truthy a then a else b

/-- Coercion of a value in a numeric position (`+`, `/`).  Numbers are
themselves, booleans coerce as in JS; other values are modelled as 0 (see the
header note on implicit coercion). -/
def toNum : JVal → JQ
  | .num q => q
  | .bool true => intJQ 1
  | _ => intJQ 0

/-- The JS test `v > 0` for the shapes the engine meets (numbers and booleans
as in JS; other values modelled as failing the test). -/
def numGt0 : JVal → Bool
  | .num q => decide (qLt (intJQ 0) q)
  | .bool b => b
  | _ => false

/-- Is the value exactly `undefined` (the JS `!== undefined` test). -/
def isUndef : JVal → Bool
  | .undefined => true
  | _ => false

/-- Is the value `null` (used by the claim-side "non-null" counts). -/
def isNull : JVal → Bool
  | .null => true
  | _ => false

/-- Member access on `null`/`undefined` throws in JS. -/
def isNullOrUndef : JVal → Bool
  | .null => true
  | .undefined => true
  | _ => false

def JVal.isArr : JVal → Bool
  | .arr _ => true
  | _ => false

def JVal.isNum : JVal → Bool
  | .num _ => true
  | _ => false

/-- Indexing `v?.[0]` as JS does it: first array element, first character of a
string, field `"0"` of an object, otherwise `undefined`. -/
def idx0 : JVal → JVal
  | .arr [] => .undefined
  | .arr (x :: _) => x
  | .str s =>
      match s.toList with
      | [] => .undefined
      | c :: _ => .str (String.mk [c])
  | .obj fs => ((fs.lookup ("0")).getD JVal.undefined)
  | _ => .undefined

/-! ### Character-list string utilities (JS `indexOf`, `slice`, `split`).
JS indexes strings by UTF-16 code units; all strings the engine handles are
ASCII, where code units coincide with characters. -/

/-- Is `p` a prefix of the text (Bool). -/
def prefOf : List Char → List Char → Bool
  | [], _ => true
  | _ :: _, [] => false
  | p :: ps, c :: cs => p == c && prefOf ps cs

/-- Index of the first occurrence of `pat` in the text, JS `indexOf` (as an
`Option` instead of `-1`). -/
def idxOfCL (pat : List Char) : List Char → Option Nat
  | [] => if pat.isEmpty then some 0 else none
  | c :: cs => if prefOf pat (c :: cs) then some 0 else (idxOfCL pat cs).map (· + 1)

/-- JS `s.indexOf(pat)` (as an `Option`). -/
def strIdxOf (s pat : String) : Option Nat := idxOfCL pat.toList s.toList

/-- JS `s.includes(pat)`. -/
def strContains (s pat : String) : Bool := (strIdxOf s pat).isSome

/-- JS `split(sep)` on a character list: `"".split` is `[""]`, separators at
the ends produce empty segments. -/
def splitCL (sep : Char) : List Char → List (List Char)
  | [] => [[]]
  | c :: cs =>
      if c == sep then [] :: splitCL sep cs
      else
        match splitCL sep cs with
        | [] => [[c]]
        | g :: gs => (c :: g) :: gs

/-- ASCII lowercasing, what `String.prototype.toLowerCase` does on the ASCII
extension strings the classifier sees. -/
def lowerChar (c : Char) : Char :=
  if 'A' ≤ c ∧ c ≤ 'Z' then Char.ofNat (c.toNat + 32) else c

def lowerStr (s : String) : String := String.mk (s.toList.map lowerChar)

/-- Index of the last occurrence of a character. -/
def lastIdxOf (t : Char) : List Char → Option Nat
  | [] => none
  | c :: cs =>
      match lastIdxOf t cs with
      | some i => some (i + 1)
      | none => if c == t then some 0 else none

/-- Node `path.extname`: the part of the last path segment from its last dot;
empty when there is no dot, when the only dot is leading (hidden files), or
for the special `".."` segment. -/
def extnameCL (base : List Char) : List Char :=
  match lastIdxOf '.' base with
  | none => []
  | some 0 => []
  | some i =>
      if i + 1 == base.length && i == 1 && base.head? == some '.' then []
      else base.drop i

def extname (s : String) : String :=
  String.mk (extnameCL ((splitCL '/' s.toList).getLastD []))

/-- `extname(...).replace('.', '')`: drop the leading dot (the only dot the
extension can contain is its first character). -/
def stripDot (s : String) : String :=
  match s.toList with
  | '.' :: rest => String.mk rest
  | _ => s

/-! ### Module Classifier (`getModuleType`, src/unnamed/part_000:1435-1472) -/

/-- The package-name extraction the classifier performs once it has seen the
`node_modules` marker: slice the path just past `"node_modules/"` (13 code
units after the first occurrence of the marker) and take the first
`/`-separated segment. -/
def packageAfterMarker (p : String) : String :=
  match strIdxOf p ("node_modules") with
  | some i => String.mk ((splitCL '/' (p.toList.drop (i + 13))).headD [])
  | none => ""

/-- `getModuleType(modulePath)`: `"unknown"` for an empty path, `npm:`-label
for `node_modules` paths, otherwise a label from the lowercased extension.
The source also has a `return 'npm'` fallback guarded by `indexOf !== -1`,
which is unreachable because `includes` was already true; it is modelled by
the `none` branch of the same `indexOf`. -/
def getModuleType (p : String) : String :=
  if p == "" then "unknown"
  else if strContains p ("node_modules") then
    match strIdxOf p ("node_modules") with
    | some i => "npm:" ++ String.mk ((splitCL '/' (p.toList.drop (i + 13))).headD [])
    | none => "npm"
  else
    let e := lowerStr (extname p)
    if e == ".js" || e == ".jsx" then "javascript"
    else if e == ".ts" || e == ".tsx" then "typescript"
    else if e == ".css" || e == ".scss" || e == ".less" then "styles"
    else if e == ".svg" || e == ".png" || e == ".jpg" || e == ".jpeg" || e == ".gif" then "image"
    else if e == ".json" then "json"
    else "other"

/-! ### JS `toString` (used for `chunk.id?.toString()` and as the implicit
coercion of a `String.prototype.includes` argument). -/

/-- Integer-denominator values format exactly as in JS; other fractions get a
canonical rendering (JS float formatting is out of scope — the engine only
stringifies document literals such as chunk ids). -/
def ratToStr (q : JQ) : String :=
  if q.d == 1 then toString q.n else toString q.n ++ "/" ++ toString q.d

mutual

/-- JS `ToString`: strings are themselves, numbers and booleans format as in
JS, plain objects render `"[object Object]"`, arrays join their elements with
commas (`null`/`undefined` elements render empty, as `Array.prototype.join`
does). -/
def jToString : JVal → String
  | .null => "null"
  | .undefined => "undefined"
  | .bool true => "true"
  | .bool false => "false"
  | .num q => ratToStr q
  | .str s => s
  | .obj _ => "[object Object]"
  | .arr xs => String.intercalate (",") (jToStringElems xs)

/-- Elements of an array under `Array.prototype.join`. -/
def jToStringElems : List JVal → List String
  | [] => []
  | x :: xs =>
      (match x with
       | .null => ""
       | .undefined => ""
       | y => jToString y) :: jToStringElems xs

end

/-! ### The Metrics Report (§3 of the spec; the object built at
src/unnamed/part_000:1266-1281) -/

structure Perf where
  initialLoad : JQ
  cacheEfficiency : JQ
  chunkFragmentation : JQ

structure EPInfo where
  size : JQ
  chunks : JVal

structure ModEntry where
  name : String
  size : JQ
  type : String

structure ChunkEntry where
  id : String
  name : JVal
  size : JQ
  modules : Nat

structure Metrics where
  totalSize : JQ
  totalSizeByType : List (String × JQ)
  entrypoints : List (String × EPInfo)
  largestModules : List ModEntry
  largestChunks : List ChunkEntry
  moduleCount : Nat
  chunkCount : Nat
  assetCount : Nat
  buildTime : JQ
  performance : Perf

/-- Result of `extractMetrics`: a report, or the degenerate value
`{error: "Failed to extract metrics"}` produced by the boundary catch. -/
inductive MetricsResult where
  | report (m : Metrics)
  | failed

/-! ### Sorting: one implementation admissible for `Array.prototype.sort`
with the comparator `(a, b) => keyOf(b) - keyOf(a)` (descending by key). -/

def insDesc {α : Type} (key : α → JQ) (x : α) : List α → List α
  | [] => [x]
  | y :: ys => if qLt (key y) (key x) then x :: y :: ys else y :: insDesc key x ys

def sortDescBy {α : Type} (key : α → JQ) : List α → List α
  | [] => []
  | x :: xs => insDesc key x (sortDescBy key xs)

/-- Sequential effectful map in `Except`: aborts at the first error, exactly
like an exception escaping a JS `forEach`/`reduce`/`map` loop. -/
def exMapM {α β : Type} (f : α → Except Unit β) : List α → Except Unit (List β)
  | [] => Except.ok []
  | x :: xs =>
      match f x with
      | .error e => .error e
      | .ok y =>
          match exMapM f xs with
          | .error e => .error e
          | .ok ys => .ok (y :: ys)

/-- Sum of a list of JS numbers. -/
def qSum : List JQ → JQ
  | [] => intJQ 0
  | x :: xs => qAdd x (qSum xs)

/-! ### Chunk Size Resolver (`calculateChunkSize`, src/unnamed/part_000:1399-1432) -/

/-- `chunk.id?.toString()` (`none` when `id` is `null`/`undefined`). -/
def chunkIdOptOf (c : JVal) : Option String :=
  match getD c ("id") with
  | .null => none
  | .undefined => none
  | v => some (jToString v)

/-- `chunk.names?.[0] || chunk.name` — the chunk's primary name value. -/
def chunkNameOf (c : JVal) : JVal :=
  jor (idx0 (getD c ("names"))) (getD c ("name"))

/-- JS SameValueZero equality, as used by `Array.prototype.includes`.  For
primitive values it is structural; two distinct object/array literals compare
by reference, modelled as unequal (a document produced by JSON parsing shares
no references). -/
def jvalEqPrim : JVal → JVal → Bool
  | .str x, .str y => x == y
  | .num x, .num y => qEq x y
  | .bool x, .bool y => x == y
  | .null, .null => true
  | .undefined, .undefined => true
  | _, _ => false

/-- `recv.includes(needle)`: array membership (SameValueZero) or substring
search (with the needle coerced to a string).  Any other receiver has no
`includes` method, so JS throws a `TypeError`. -/
def jsIncludes (recv needle : JVal) : Except Unit Bool :=
  match recv with
  | .arr xs => Except.ok (xs.any (fun x => jvalEqPrim x needle))
  | .str s => Except.ok (strContains s (jToString needle))
  | _ => Except.error ()

/-- One step of the asset-association `reduce` (lines 1420-1428): skip falsy
assets; test clause (a) `chunkId && asset.chunks && asset.chunks.includes(chunkId)`
then clause (b) `chunkName && asset.name && asset.name.includes(chunkName)`
with JS short-circuiting; an associated asset contributes `asset.size || 0`. -/
def assetContrib (cid : Option String) (cname : JVal) (a : JVal) : Except Unit JQ :=
  if truthy a = false then Except.ok (intJQ 0)
  else
    match
      (match cid with
       | some s =>
           if s == "" then Except.ok false
           else if truthy (getD a ("chunks")) then jsIncludes (getD a ("chunks")) (.str s)
           else Except.ok false
       | none => Except.ok false) with
    | .error e => .error e
    | .ok hitA =>
        match
          (if hitA then Except.ok true
           else if truthy cname && truthy (getD a ("name")) then jsIncludes (getD a ("name")) cname
           else Except.ok false) with
        | .error e => .error e
        | .ok hit => Except.ok (if hit then toNum (jor (getD a ("size")) (.num (intJQ 0))) else intJQ 0)

/-- `calculateChunkSize(chunk, stats)`: direct numeric `size` wins; else the
sum over a `modules` array of `module?.size || 0`; else, when the document's
`assets` is an array and the chunk has an `id` or `name` field, the sum of
associated asset sizes; else 0.  Reading `stats.assets` throws when `stats`
is `null`/`undefined`. -/
def calculateChunkSize (c stats : JVal) : Except Unit JQ :=
  if truthy c = false then Except.ok (intJQ 0)
  else
    match getD c ("size") with
    | .num n => Except.ok n
    | _ =>
      match getD c ("modules") with
      | .arr ms =>
          Except.ok (ms.foldl (fun t m => qAdd t (toNum (jor (getD m ("size")) (.num (intJQ 0))))) (intJQ 0))
      | _ =>
        if isNullOrUndef stats then Except.error ()
        else
          match getD stats ("assets") with
          | .arr as =>
              if !(isUndef (getD c ("id"))) || !(isUndef (getD c ("name"))) then
                match exMapM (assetContrib (chunkIdOptOf c) (chunkNameOf c)) as with
                | .error e => .error e
                | .ok l => Except.ok (qSum l)
              else Except.ok (intJQ 0)
          | _ => Except.ok (intJQ 0)

/-! ### Metrics Extraction Engine (`extractMetrics`, src/unnamed/part_000:1263-1396) -/

/-- The file-type key an asset is grouped under (line 1295):
`path.extname(asset.name || '').replace('.', '') || 'unknown'`. -/
def extKeyOf (s : String) : String :=
  let e := stripDot (extname s)
  if e == "" then "unknown" else e

/-- `m[k] = (m[k] || 0) + v` on the `totalSizeByType` record: insertion order
of keys is preserved, an existing key accumulates in place. -/
def upsertAdd (l : List (String × JQ)) (k : String) (v : JQ) : List (String × JQ) :=
  if (l.lookup k).isSome then l.map (fun p => if p.1 == k then (p.1, qAdd p.2 v) else p)
  else l ++ [(k, v)]

/-- One asset of the assets pass (lines 1288-1297): falsy entries are skipped;
otherwise the contribution is `(asset.size || 0, extension key)`.  A truthy
non-string `asset.name` makes `path.extname` throw a `TypeError`. -/
def assetItem (a : JVal) : Except Unit (Option (JQ × String)) :=
  if truthy a = false then Except.ok none
  else
    match jor (getD a ("name")) (.str ("")) with
    | .str s => Except.ok (some (toNum (jor (getD a ("size")) (.num (intJQ 0))), extKeyOf s))
    | _ => Except.error ()

/-- Assets pass (lines 1284-1298): `(assetCount, totalSize, totalSizeByType)`.
`assetCount` is the raw array length; accumulation skips falsy entries. -/
def assetsPass (stats : JVal) : Except Unit (Nat × JQ × List (String × JQ)) :=
  match getD stats ("assets") with
  | .arr xs =>
      match exMapM assetItem xs with
      | .error e => .error e
      | .ok items =>
          let somes := items.filterMap id
          Except.ok (xs.length, qSum (somes.map Prod.fst),
            somes.foldl (fun acc p => upsertAdd acc p.2 p.1) [])
  | _ => Except.ok (0, intJQ 0, [])

/-- `Object.entries`: fields of an object, indexed entries of an array or a
string, empty for other (truthy) primitives — exactly JS behaviour, except
that JS enumerates integer-like object keys first (see header note). -/
def jsEntries : JVal → List (String × JVal)
  | .obj fs => fs
  | .arr xs => (xs.enum.map (fun p => (toString p.1, p.2)))
  | .str s => ((s.toList.enum.map (fun p => (toString p.1, JVal.str (String.mk [p.2])))))
  | _ => []

/-- `typeof v === 'object' && v !== null` (arrays included, as in JS). -/
def isObjLike : JVal → Bool
  | .obj _ => true
  | .arr _ => true
  | _ => false

/-- Entrypoint size (lines 1305-1315): sum of `asset.size || 0` over the
object-typed entries of `entrypoint.assets` when that is an array, else 0. -/
def epSize (ep : JVal) : JQ :=
  match getD ep ("assets") with
  | .arr ys => qSum (ys.map (fun y => if isObjLike y then toNum (jor (getD y ("size")) (.num (intJQ 0))) else intJQ 0))
  | _ => intJQ 0

/-- Record-field assignment `metrics.entrypoints[name] = v` (overwrite keeps
the original position, new keys append — JS object semantics). -/
def upsertEP (l : List (String × EPInfo)) (k : String) (v : EPInfo) : List (String × EPInfo) :=
  if (l.lookup k).isSome then l.map (fun p => if p.1 == k then (p.1, v) else p)
  else l ++ [(k, v)]

/-- One entrypoint (lines 1302-1326): skip falsy entries; record
`{size, chunks: entrypoint.chunks || []}`; a `main`/`index` name overwrites
`performance.initialLoad` with `size / 1024` (last match wins). -/
def entryStep (acc : List (String × EPInfo) × JQ) (p : String × JVal) : List (String × EPInfo) × JQ :=
  if truthy p.2 = false then acc
  else
    let sz := epSize p.2
    (upsertEP acc.1 p.1 ⟨sz, jor (getD p.2 ("chunks")) (.arr [])⟩,
     if p.1 == "main" || p.1 == "index" then qDiv sz (intJQ 1024) else acc.2)

/-- Entrypoints pass (lines 1301-1327): `(entrypoints, initialLoad)`. -/
def entryPass (stats : JVal) : List (String × EPInfo) × JQ :=
  let ev := getD stats ("entrypoints")
  if truthy ev then (jsEntries ev).foldl entryStep ([], intJQ 0) else ([], intJQ 0)

/-- The filter of the modules pass: `module && module.size > 0`. -/
def validMod (m : JVal) : Bool := truthy m && numGt0 (getD m ("size"))

/-- The sort key `module.size || 0` of the comparator at line 1337. -/
def modKey (m : JVal) : JQ := toNum (jor (getD m ("size")) (.num (intJQ 0)))

/-- Mapping a module to a report entry (lines 1340-1344).  A truthy non-string
`module.name` reaches `getModuleType`, where `.includes`/`path.extname` on a
non-string throws. -/
def modEntry (m : JVal) : Except Unit ModEntry :=
  if truthy (getD m ("name")) then
    match getD m ("name") with
    | .str s => Except.ok ⟨s, modKey m, getModuleType s⟩
    | _ => Except.error ()
  else Except.ok ⟨"unknown", modKey m, getModuleType ("")⟩

/-- Modules pass (lines 1330-1345): `(moduleCount, largestModules)` — count of
valid modules, and the valid modules sorted descending by size, truncated to
20, mapped to entries. -/
def modulesPass (stats : JVal) : Except Unit (Nat × List ModEntry) :=
  match getD stats ("modules") with
  | .arr xs =>
      match exMapM modEntry ((sortDescBy modKey (xs.filter validMod)).take 20) with
      | .error e => .error e
      | .ok entries => Except.ok ((xs.filter validMod).length, entries)
  | _ => Except.ok (0, [])

/-- Mapping a (chunk, resolved size) pair to a report entry (lines 1362-1367). -/
def chunkEntryOf (p : JVal × JQ) : ChunkEntry :=
  ⟨(match getD p.1 ("id") with
    | .null => "unknown"
    | .undefined => "unknown"
    | v => if jToString v == "" then "unknown" else jToString v),
   jor (chunkNameOf p.1) (.str ("unnamed chunk")),
   p.2,
   (match getD p.1 ("modules") with
    | .arr ys => ys.length
    | _ => 0)⟩

/-- Chunks pass (lines 1348-1367): `(chunkCount, largestChunks)` — count of
truthy entries; entries sorted descending by resolved size, truncated to 10.
Resolved sizes are computed for every filtered chunk (the sort comparator
touches each element, and the final map recomputes them), so an exception in
`calculateChunkSize` for any of them aborts the pass. -/
def chunksPass (stats : JVal) : Except Unit (Nat × List ChunkEntry) :=
  match getD stats ("chunks") with
  | .arr xs =>
      match exMapM (fun c => calculateChunkSize c stats) (xs.filter truthy) with
      | .error e => .error e
      | .ok sizes =>
          Except.ok ((xs.filter truthy).length,
            ((sortDescBy Prod.snd ((xs.filter truthy).zip sizes)).take 10).map chunkEntryOf)
  | _ => Except.ok (0, [])

/-- `metrics.entrypoints?.main?.size || metrics.entrypoints?.index?.size || 0`
(line 1382): JS `||` falls through on a falsy (zero) size, not only on a
missing entrypoint. -/
def jsMainBundleSize (eps : List (String × EPInfo)) : JQ :=
  match eps.lookup ("main") with
  | some e =>
      if qIsZero e.size then
        (match eps.lookup ("index") with
         | some e2 => e2.size
         | none => intJQ 0)
      else e.size
  | none =>
      match eps.lookup ("index") with
      | some e2 => e2.size
      | none => intJQ 0

/-- Assembling the report: the two derived health indicators (lines 1369-1389)
from the accumulated aggregates, then the record of §3. -/
def mkMetrics (a : Nat × JQ × List (String × JQ)) (ep : List (String × EPInfo) × JQ)
    (mo : Nat × List ModEntry) (ch : Nat × List ChunkEntry) (bt : JQ) : Metrics :=
  ⟨a.2.1, a.2.2, ep.1, mo.2, ch.2, mo.1, ch.1, a.1, bt,
   ⟨ep.2,
    (if qLt (intJQ 0) a.2.1 ∧ 1 < ch.1 then
       qMin (qMul (qDiv (qSub a.2.1 (jsMainBundleSize ep.1)) a.2.1) (intJQ 100)) (intJQ 100)
     else intJQ 0),
    (if 0 < ch.1 then qMin (qDiv (intJQ (ch.1 : Int)) (intJQ ((max ep.1.length 1 : Nat) : Int))) (intJQ 100)
     else intJQ 0)⟩⟩

/-- The body of the `try` block.  Reading `stats.time` at line 1275 throws when
`stats` is `null`/`undefined`; afterwards each pass may throw as modelled
above.  `chunkFragmentation` is computed inside the chunks branch in the
source, but when `chunks` is not an array `chunkCount` stays 0 and the guard
`chunkCount > 0` fails, so hoisting it into the assembly is equivalent. -/
def extractBody (stats : JVal) : Except Unit Metrics :=
  if isNullOrUndef stats then Except.error ()
  else
    match assetsPass stats with
    | .error e => .error e
    | .ok a =>
      match modulesPass stats with
      | .error e => .error e
      | .ok mo =>
        match chunksPass stats with
        | .error e => .error e
        | .ok ch =>
            Except.ok (mkMetrics a (entryPass stats) mo ch
              (toNum (jor (getD stats ("time")) (.num (intJQ 0)))))

/-- `extractMetrics(stats)` with its boundary `try`/`catch` (lines 1263-1396):
any internal exception becomes the degenerate value. -/
def extractMetrics (stats : JVal) : MetricsResult :=
  match extractBody stats with
  | .ok m => .report m
  | .error _ => .failed

/-! ### Accessors on results (used to state claims without destructuring) -/

def mIsReport : MetricsResult → Bool
  | .report _ => true
  | .failed => false

def mIsFailed : MetricsResult → Bool
  | .report _ => false
  | .failed => true

def mTotalSize : MetricsResult → JQ
  | .report m => m.totalSize
  | .failed => intJQ 0

def mModuleCount : MetricsResult → Nat
  | .report m => m.moduleCount
  | .failed => 0

def mChunkCount : MetricsResult → Nat
  | .report m => m.chunkCount
  | .failed => 0

def mAssetCount : MetricsResult → Nat
  | .report m => m.assetCount
  | .failed => 0

def mCacheEff : MetricsResult → JQ
  | .report m => m.performance.cacheEfficiency
  | .failed => intJQ 0

def mEntrypoints : MetricsResult → List (String × EPInfo)
  | .report m => m.entrypoints
  | .failed => []

def mLargestModules : MetricsResult → List ModEntry
  | .report m => m.largestModules
  | .failed => []

def mLargestChunks : MetricsResult → List ChunkEntry
  | .report m => m.largestChunks
  | .failed => []

/-! ### Derived counts recomputed from the document (for stating claims) -/

def modulesArrOf (s : JVal) : List JVal :=
  match getD s ("modules") with
  | .arr xs => xs
  | _ => []

def chunksArrOf (s : JVal) : List JVal :=
  match getD s ("chunks") with
  | .arr xs => xs
  | _ => []

def assetsArrOf (s : JVal) : List JVal :=
  match getD s ("assets") with
  | .arr xs => xs
  | _ => []

/-- Number of modules passing the engine's filter (`module && module.size > 0`). -/
def validModCount (s : JVal) : Nat := ((modulesArrOf s).filter validMod).length

/-- Number of truthy chunk entries (the engine's `filter(chunk => chunk)`). -/
def truthyChunkCount (s : JVal) : Nat := ((chunksArrOf s).filter truthy).length

/-- Length of the `assets` array (what the code assigns to `assetCount`). -/
def assetsLenOf (s : JVal) : Nat := (assetsArrOf s).length

/-- Claim-side count: entries of a sequence that are not null. -/
def nonNullCount (l : List JVal) : Nat := (l.filter (fun v => !(isNull v))).length

/-- Claim-side count: non-null modules with `size > 0`. -/
def nonNullSizeGt0Count (l : List JVal) : Nat :=
  (l.filter (fun m => !(isNull m) && numGt0 (getD m ("size")))).length

/-- Claim-side main-bundle size, following the claim's words: the size of the
entrypoint named `main` if one exists, else of `index`, else 0. -/
def claimMainBundleSize (eps : List (String × EPInfo)) : JQ :=
  match eps.lookup ("main") with
  | some e => e.size
  | none =>
      match eps.lookup ("index") with
      | some e2 => e2.size
      | none => intJQ 0



/-- Shorthand for building documents: an integer JS number literal. -/
def jnum (i : Int) : JVal := JVal.num (intJQ i)

/-! ### Concrete documents used as witnesses and counterexamples -/

/-- A document whose `modules` field is a number (C2's fault-injection shape). -/
def docC2 : JVal := JVal.obj [(("modules"), jnum 5)]

/-- A chunk with an explicit `size` of 500 and a `modules` sequence summing to
900 (C3's precedence scenario). -/
def chunkC3 : JVal :=
  JVal.obj [(("size"), jnum 500), (("modules"), JVal.arr [JVal.obj [(("size"), jnum 900)]])]

/-- totalSize 1000 (two assets), two chunks, `main` entrypoint of size 400:
the cache-efficiency scenario of C5. -/
def docC5w : JVal := JVal.obj
  [(("assets"), JVal.arr
     [JVal.obj [(("name"), JVal.str ("a.js")), (("size"), jnum 600)],
      JVal.obj [(("name"), JVal.str ("b.js")), (("size"), jnum 400)]]),
   (("chunks"), JVal.arr
     [JVal.obj [(("id"), jnum 0), (("size"), jnum 600)],
      JVal.obj [(("id"), jnum 1), (("size"), jnum 400)]]),
   (("entrypoints"), JVal.obj
     [(("main"), JVal.obj
        [(("assets"), JVal.arr [JVal.obj [(("size"), jnum 400)]]),
         (("chunks"), JVal.arr [])])])]

/-- totalSize 1000, two chunks, a `main` entrypoint whose size is 0 and an
`index` entrypoint of size 400: separates the claim's existence-based
main-bundle fallback from the code's falsiness-based `||` fallback. -/
def docC5x : JVal := JVal.obj
  [(("assets"), JVal.arr [JVal.obj [(("name"), JVal.str ("a.js")), (("size"), jnum 1000)]]),
   (("chunks"), JVal.arr
     [JVal.obj [(("id"), jnum 0), (("size"), jnum 600)],
      JVal.obj [(("id"), jnum 1), (("size"), jnum 400)]]),
   (("entrypoints"), JVal.obj
     [(("main"), JVal.obj [(("assets"), JVal.arr [])]),
      (("index"), JVal.obj [(("assets"), JVal.arr [JVal.obj [(("size"), jnum 400)]])])])]

/-- Two modules and two chunks with plain sizes (C6/C7 witness shape). -/
def docC67w : JVal := JVal.obj
  [(("assets"), JVal.arr
     [JVal.null,
      JVal.obj [(("name"), JVal.str ("a.js")), (("size"), jnum 5)]]),
   (("modules"), JVal.arr
     [JVal.obj [(("name"), JVal.str ("m1.js")), (("size"), jnum 3)],
      JVal.obj [(("name"), JVal.str ("m2.ts")), (("size"), jnum 7)]]),
   (("chunks"), JVal.arr
     [JVal.obj [(("id"), jnum 0), (("size"), jnum 8)],
      JVal.obj [(("id"), jnum 1), (("size"), jnum 2)]])]

/-- A `chunks` sequence containing the non-null falsy entry `false`:
the engine's truthiness filter drops it, a "non-null" count keeps it. -/
def docC6x : JVal := JVal.obj
  [(("chunks"), JVal.arr [JVal.bool (false), JVal.obj [(("id"), jnum 1), (("size"), jnum 2)]])]

/-- A null asset entry and a `chunks` sequence containing the number 0:
`assetCount` counts the null, the chunk filter drops the non-null 0. -/
def docC7x : JVal := JVal.obj
  [(("assets"), JVal.arr
     [JVal.null,
      JVal.obj [(("name"), JVal.str ("a.js")), (("size"), jnum 5)]]),
   (("modules"), JVal.arr [JVal.obj [(("size"), jnum 2)]]),
   (("chunks"), JVal.arr [jnum 0, JVal.obj [(("id"), jnum 1), (("size"), jnum 2)]])]

/-- A chunk carrying a negative explicit size (C8 counterexample). -/
def chunkC8x : JVal := JVal.obj [(("size"), jnum (-5))]

/-- A chunk with nonnegative explicit size (C8 witness). -/
def chunkC8w : JVal := JVal.obj [(("size"), jnum 500)]

/-- A chunk with no `size`, no `modules`, no `id`/`name`, but a non-empty
`names` sequence (C9). -/
def chunkC9 : JVal := JVal.obj [(("names"), JVal.arr [JVal.str ("main")])]

/-- A document whose only asset's name contains the chunk's primary name
`"main"` as a substring (C9: the asset fallback would match, but is never
attempted). -/
def statsC9 : JVal := JVal.obj
  [(("assets"), JVal.arr [JVal.obj [(("name"), JVal.str ("main.js")), (("size"), jnum 100)]])]

/-! ### Facts about the exact number representation -/
/-- A `JQ` is the value zero exactly when its numerator is. -/
theorem qIsZero_iff (a : JQ) : qIsZero a = true ↔ a.n = 0 := by
  simp [qIsZero]

theorem qLe_refl (a : JQ) : qLe a a := le_refl _

theorem qLe_of_qLt {a b : JQ} (h : qLt a b) : qLe a b := le_of_lt h

theorem qLe_of_not_qLt {a b : JQ} (h : ¬ qLt a b) : qLe b a := Int.not_lt.mp h

theorem qLe_trans {a b c : JQ} (hab : qLe a b) (hbc : qLe b c) : qLe a c := by
  unfold qLe at hab hbc ⊢
  have h1 : a.n * b.d * c.d ≤ b.n * a.d * c.d :=
    mul_le_mul_of_nonneg_right hab (le_of_lt c.hd)
  have h2 : b.n * c.d * a.d ≤ c.n * b.d * a.d :=
    mul_le_mul_of_nonneg_right hbc (le_of_lt a.hd)
  have h3 : a.n * c.d * b.d ≤ c.n * a.d * b.d := by nlinarith
  exact le_of_mul_le_mul_right h3 b.hd

theorem qAdd_nonneg {a b : JQ} (ha : qLe (intJQ 0) a) (hb : qLe (intJQ 0) b) :
    qLe (intJQ 0) (qAdd a b) := by
  unfold qLe intJQ at ha hb ⊢
  simp only [qAdd] at *
  nlinarith [a.hd, b.hd]


/-! ### Lemmas about the descending insertion sort -/

theorem mem_insDesc {α : Type} (key : α → JQ) (x : α) :
    ∀ {l : List α} {y : α}, y ∈ insDesc key x l → y = x ∨ y ∈ l := by
  intro l
  induction l with
  | nil =>
      intro y hy
      simp [insDesc] at hy
      exact Or.inl hy
  | cons z zs ih =>
      intro y hy
      unfold insDesc at hy
      by_cases hk : qLt (key z) (key x)
      · rw [if_pos hk] at hy
        rcases List.mem_cons.mp hy with h | h
        · exact Or.inl h
        · exact Or.inr h
      · rw [if_neg hk] at hy
        rcases List.mem_cons.mp hy with h | h
        · exact Or.inr (by simp [h])
        · rcases ih h with h2 | h2
          · exact Or.inl h2
          · exact Or.inr (List.mem_cons_of_mem _ h2)

theorem length_insDesc {α : Type} (key : α → JQ) (x : α) :
    ∀ l : List α, (insDesc key x l).length = l.length + 1 := by
  intro l
  induction l with
  | nil => rfl
  | cons z zs ih =>
      unfold insDesc
      by_cases hk : qLt (key z) (key x)
      · rw [if_pos hk]; rfl
      · rw [if_neg hk]
        simp [ih]

theorem length_sortDescBy {α : Type} (key : α → JQ) :
    ∀ l : List α, (sortDescBy key l).length = l.length := by
  intro l
  induction l with
  | nil => rfl
  | cons x xs ih =>
      unfold sortDescBy
      rw [length_insDesc, ih]
      rfl

theorem pairwise_insDesc {α : Type} (key : α → JQ) (x : α) :
    ∀ {l : List α}, List.Pairwise (fun a b => qLe (key b) (key a)) l →
      List.Pairwise (fun a b => qLe (key b) (key a)) (insDesc key x l) := by
  intro l
  induction l with
  | nil =>
      intro _
      simp [insDesc]
  | cons y ys ih =>
      intro h
      rw [List.pairwise_cons] at h
      unfold insDesc
      by_cases hk : qLt (key y) (key x)
      · rw [if_pos hk]
        rw [List.pairwise_cons]
        refine ⟨?_, List.pairwise_cons.mpr h⟩
        intro b hb
        rcases List.mem_cons.mp hb with hby | hbys
        · rw [hby]; exact qLe_of_qLt hk
        · exact qLe_trans (h.1 b hbys) (qLe_of_qLt hk)
      · rw [if_neg hk]
        rw [List.pairwise_cons]
        refine ⟨?_, ih h.2⟩
        intro b hb
        rcases mem_insDesc key x hb with hbx | hbys
        · rw [hbx]; exact qLe_of_not_qLt hk
        · exact h.1 b hbys

theorem pairwise_sortDescBy {α : Type} (key : α → JQ) :
    ∀ l : List α, List.Pairwise (fun a b => qLe (key b) (key a)) (sortDescBy key l) := by
  intro l
  induction l with
  | nil => exact List.Pairwise.nil
  | cons x xs ih =>
      unfold sortDescBy
      exact pairwise_insDesc key x ih

/-! ### Lemmas about `exMapM` -/

theorem exMapM_ok_forall₂ {α β : Type} {f : α → Except Unit β} :
    ∀ {l : List α} {l2 : List β}, exMapM f l = Except.ok l2 →
      List.Forall₂ (fun a b => f a = Except.ok b) l l2 := by
  intro l
  induction l with
  | nil =>
      intro l2 h
      unfold exMapM at h
      cases h
      exact List.Forall₂.nil
  | cons x xs ih =>
      intro l2 h
      unfold exMapM at h
      cases hf : f x with
      | error e => rw [hf] at h; nomatch h
      | ok y =>
          rw [hf] at h
          cases hr : exMapM f xs with
          | error e => rw [hr] at h; nomatch h
          | ok ys =>
              rw [hr] at h
              cases h
              exact List.Forall₂.cons hf (ih hr)

theorem mem_right_of_forall₂ {α β : Type} {Q : α → β → Prop} :
    ∀ {l : List α} {l2 : List β}, List.Forall₂ Q l l2 →
      ∀ {b : β}, b ∈ l2 → ∃ a, a ∈ l ∧ Q a b := by
  intro l l2 h
  induction h with
  | nil => intro b hb; nomatch hb
  | cons ha ht ih =>
      intro b hb
      rcases List.mem_cons.mp hb with hb1 | hb2
      · exact ⟨_, List.mem_cons_self _ _, hb1 ▸ ha⟩
      · rcases ih hb2 with ⟨a, hal, hq⟩
        exact ⟨a, List.mem_cons_of_mem _ hal, hq⟩

theorem pairwise_transfer {α β : Type} {Q : α → β → Prop} {R : α → α → Prop} {S : β → β → Prop}
    (hcompat : ∀ a b x y, Q a x → Q b y → R a b → S x y) :
    ∀ {l : List α} {l2 : List β}, List.Forall₂ Q l l2 →
      List.Pairwise R l → List.Pairwise S l2 := by
  intro l l2 hf
  induction hf with
  | nil => intro _; exact List.Pairwise.nil
  | @cons a x l' l2' ha ht ih =>
      intro hp
      rw [List.pairwise_cons] at hp
      rw [List.pairwise_cons]
      refine ⟨?_, ih hp.2⟩
      intro y hy
      rcases mem_right_of_forall₂ ht hy with ⟨b, hbl, hq⟩
      exact hcompat a b x y ha hq (hp.1 b hbl)

/-! ### Stage lemmas about the extraction pipeline -/

theorem extract_report_eq {s : JVal} {m : Metrics} (h : extractMetrics s = MetricsResult.report m) :
    ∃ a mo ch, assetsPass s = Except.ok a ∧ modulesPass s = Except.ok mo ∧
      chunksPass s = Except.ok ch ∧
      m = mkMetrics a (entryPass s) mo ch (toNum (jor (getD s ("time")) (JVal.num (intJQ 0)))) := by
  unfold extractMetrics at h
  cases hb : extractBody s with
  | error e => rw [hb] at h; nomatch h
  | ok mm =>
      rw [hb] at h
      have hmEq : mm = m := by cases h; rfl
      unfold extractBody at hb
      split at hb
      · nomatch hb
      · cases hA : assetsPass s with
        | error e => simp only [hA] at hb; nomatch hb
        | ok a =>
            simp only [hA] at hb
            cases hMo : modulesPass s with
            | error e => simp only [hMo] at hb; nomatch hb
            | ok mo =>
                simp only [hMo] at hb
                cases hCh : chunksPass s with
                | error e => simp only [hCh] at hb; nomatch hb
                | ok ch =>
                    simp only [hCh] at hb
                    cases hb
                    exact ⟨a, mo, ch, rfl, rfl, rfl, hmEq.symm⟩

theorem assetsPass_ok_count {s : JVal} {a : Nat × JQ × List (String × JQ)}
    (h : assetsPass s = Except.ok a) : a.1 = assetsLenOf s := by
  unfold assetsPass at h
  cases hm : getD s ("assets") <;> simp only [hm] at h <;>
    first
    | (cases h; simp [assetsLenOf, assetsArrOf, hm])
    | (rename_i xs
       cases hE : exMapM assetItem xs with
       | error e => simp only [hE] at h; nomatch h
       | ok items =>
           simp only [hE] at h
           cases h
           simp [assetsLenOf, assetsArrOf, hm])

theorem modEntry_ok_size {m : JVal} {e : ModEntry} (h : modEntry m = Except.ok e) :
    e.size = modKey m := by
  unfold modEntry at h
  split at h
  · split at h
    · cases h; rfl
    · nomatch h
  · cases h; rfl

theorem modulesPass_ok {s : JVal} {mo : Nat × List ModEntry} (h : modulesPass s = Except.ok mo) :
    mo.1 = validModCount s ∧
    mo.2.length = min 20 (validModCount s) ∧
    List.Pairwise (fun a b : ModEntry => qLe b.size a.size) mo.2 := by
  unfold modulesPass at h
  cases hm : getD s ("modules") <;> simp only [hm] at h <;>
    first
    | (cases h
       refine ⟨by simp [validModCount, modulesArrOf, hm], by simp [validModCount, modulesArrOf, hm],
         List.Pairwise.nil⟩)
    | (rename_i xs
       cases hE : exMapM modEntry ((sortDescBy modKey (xs.filter validMod)).take 20) with
       | error e => simp only [hE] at h; nomatch h
       | ok entries =>
           simp only [hE] at h
           cases h
           have hvc : validModCount s = (xs.filter validMod).length := by
             simp [validModCount, modulesArrOf, hm]
           have hf2 := exMapM_ok_forall₂ hE
           refine ⟨hvc.symm, ?_, ?_⟩
           · rw [← List.Forall₂.length_eq hf2, List.length_take, length_sortDescBy, hvc]
           · refine pairwise_transfer ?_ hf2
               (List.Pairwise.sublist (List.take_sublist 20 _) (pairwise_sortDescBy modKey (xs.filter validMod)))
             intro a b x y hqa hqb hr
             rw [modEntry_ok_size hqa, modEntry_ok_size hqb]
             exact hr)

theorem chunksPass_ok {s : JVal} {ch : Nat × List ChunkEntry} (h : chunksPass s = Except.ok ch) :
    ch.1 = truthyChunkCount s ∧
    ch.2.length = min 10 (truthyChunkCount s) ∧
    List.Pairwise (fun a b : ChunkEntry => qLe b.size a.size) ch.2 := by
  unfold chunksPass at h
  cases hm : getD s ("chunks") <;> simp only [hm] at h <;>
    first
    | (cases h
       refine ⟨by simp [truthyChunkCount, chunksArrOf, hm], by simp [truthyChunkCount, chunksArrOf, hm],
         List.Pairwise.nil⟩)
    | (rename_i xs
       cases hE : exMapM (fun c => calculateChunkSize c s) (xs.filter truthy) with
       | error e => simp only [hE] at h; nomatch h
       | ok sizes =>
           simp only [hE] at h
           cases h
           have hvc : truthyChunkCount s = (xs.filter truthy).length := by
             simp [truthyChunkCount, chunksArrOf, hm]
           have hlen : sizes.length = (xs.filter truthy).length :=
             (List.Forall₂.length_eq (exMapM_ok_forall₂ hE)).symm
           refine ⟨hvc.symm, ?_, ?_⟩
           · rw [List.length_map, List.length_take, length_sortDescBy, List.length_zip, hlen,
               Nat.min_self, hvc]
           · refine List.Pairwise.map chunkEntryOf ?_
               (List.Pairwise.sublist (List.take_sublist 10 _) (pairwise_sortDescBy Prod.snd _))
             intro p q hpq
             exact hpq)

/-! ### Nonnegativity helpers for the Chunk Size Resolver -/

theorem foldl_qAdd_nonneg {α : Type} (f : α → JQ) :
    ∀ (l : List α) (init : JQ), qLe (intJQ 0) init → (∀ m ∈ l, qLe (intJQ 0) (f m)) →
      qLe (intJQ 0) (l.foldl (fun t m => qAdd t (f m)) init) := by
  intro l
  induction l with
  | nil => intro init hi _; exact hi
  | cons x xs ih =>
      intro init hi hall
      exact ih (qAdd init (f x)) (qAdd_nonneg hi (hall x (List.mem_cons_self x xs)))
        (fun m hm => hall m (List.mem_cons_of_mem x hm))

theorem qSum_nonneg : ∀ l : List JQ, (∀ x ∈ l, qLe (intJQ 0) x) → qLe (intJQ 0) (qSum l) := by
  intro l
  induction l with
  | nil => intro _; exact qLe_refl _
  | cons x xs ih =>
      intro h
      exact qAdd_nonneg (h x (List.mem_cons_self x xs))
        (ih fun y hy => h y (List.mem_cons_of_mem x hy))

theorem assetContrib_ok_nonneg {cid : Option String} {cname a : JVal} {x : JQ}
    (ha : qLe (intJQ 0) (toNum (jor (getD a ("size")) (JVal.num (intJQ 0)))))
    (h : assetContrib cid cname a = Except.ok x) : qLe (intJQ 0) x := by
  unfold assetContrib at h
  split at h
  · cases h; exact qLe_refl _
  · split at h
    · nomatch h
    · split at h
      · nomatch h
      · cases h
        split
        · exact ha
        · exact qLe_refl _

/-! ### The claims -/

/-- C1: `extractMetrics` is total and never raises: for every input value —
`null`, `undefined` and non-object primitives included — it returns either a
Metrics Report or the degenerate extraction-failure value, never propagating
an exception.  (A `null` input makes the `stats.time` read throw inside the
`try`, so it yields the degenerate value; a primitive such as `5` yields an
empty normal report.) -/
theorem extractMetrics_total_or_degenerate_C1 :
    (∀ v : JVal, mIsReport (extractMetrics v) = true ∨ mIsFailed (extractMetrics v) = true) ∧
    mIsFailed (extractMetrics JVal.null) = true ∧
    mIsFailed (extractMetrics JVal.undefined) = true ∧
    mIsReport (extractMetrics (jnum 5)) = true := by
  refine ⟨fun v => ?_, by decide, by decide, by decide⟩
  cases h : extractMetrics v with
  | report m => exact Or.inl rfl
  | failed => exact Or.inr rfl

/-- C3: a chunk whose `size` field is a number resolves to that number
unchanged, whatever the rest of the chunk and the stats document contain. -/
theorem chunk_explicit_size_wins_C3 (c s : JVal) (n : JQ)
    (h : getD c ("size") = JVal.num n) :
    calculateChunkSize c s = Except.ok n := by
  cases c with
  | obj fs =>
      unfold calculateChunkSize
      rw [h]
      rfl
  | null => simp [getD] at h
  | undefined => simp [getD] at h
  | bool b => simp [getD] at h
  | num q => simp [getD] at h
  | str t => simp [getD] at h
  | arr xs => simp [getD] at h

/-- C3 witness: a chunk with explicit size 500 and a modules sequence summing
to 900 resolves to 500 (explicit wins), in an empty document. -/
theorem chunk_explicit_size_wins_C3_witness :
    calculateChunkSize chunkC3 (JVal.obj []) = Except.ok (intJQ 500) :=
  chunk_explicit_size_wins_C3 chunkC3 (JVal.obj []) (intJQ 500) rfl

/-- C9: a chunk with no numeric `size`, no `modules` array and neither `id`
nor `name` fields resolves to 0, regardless of its `names` sequence and of any
assets in the document whose names contain the chunk's primary name — the
asset-association fallback is guarded by `chunk.id !== undefined ||
chunk.name !== undefined`. -/
theorem chunkSize_no_id_name_zero_C9 (c s : JVal)
    (h1 : (getD c ("size")).isNum = false)
    (h2 : (getD c ("modules")).isArr = false)
    (h3 : getD c ("id") = JVal.undefined)
    (h4 : getD c ("name") = JVal.undefined)
    (h5 : isNullOrUndef s = false) :
    calculateChunkSize c s = Except.ok (intJQ 0) := by
  unfold calculateChunkSize
  split
  · rfl
  · split
    · rename_i n heq
      rw [heq] at h1
      nomatch h1
    · split
      · rename_i ms heq
        rw [heq] at h2
        nomatch h2
      · rw [h5]
        split
        · rename_i h6
          nomatch h6
        · split
          · rw [h3, h4]
            simp [isUndef]
          · rfl

/-- C9 witness: a chunk `{names: ["main"]}` against a document whose asset
`"main.js"` would match by substring still resolves to 0. -/
theorem chunkSize_no_id_name_zero_C9_witness :
    calculateChunkSize chunkC9 statsC9 = Except.ok (intJQ 0) :=
  chunkSize_no_id_name_zero_C9 chunkC9 statsC9 rfl rfl rfl rfl rfl

/-- C8 counterexample: the resolver does not always return a number ≥ 0 — a
chunk with explicit `size: -5` resolves to -5, which is negative. -/
theorem chunkSize_nonneg_C8_cex :
    calculateChunkSize chunkC8x (JVal.obj []) = Except.ok (intJQ (-5)) ∧
    ¬ qLe (intJQ 0) (intJQ (-5)) :=
  ⟨rfl, by decide⟩

/-- C8 (amended): the resolver returns a nonnegative number provided every
size it can read is a nonnegative number — the chunk's own numeric `size`,
the `module.size || 0` contributions of its `modules` array, and the
`asset.size || 0` contributions of the document's assets — and provided the
resolution does not throw. -/
theorem chunkSize_nonneg_C8 (c s : JVal) (q : JQ)
    (h1 : ∀ n : JQ, getD c ("size") = JVal.num n → qLe (intJQ 0) n)
    (h2 : ∀ ms : List JVal, getD c ("modules") = JVal.arr ms →
      ∀ m ∈ ms, qLe (intJQ 0) (toNum (jor (getD m ("size")) (JVal.num (intJQ 0)))))
    (h3 : ∀ as : List JVal, getD s ("assets") = JVal.arr as →
      ∀ a ∈ as, qLe (intJQ 0) (toNum (jor (getD a ("size")) (JVal.num (intJQ 0)))))
    (hok : calculateChunkSize c s = Except.ok q) :
    qLe (intJQ 0) q := by
  unfold calculateChunkSize at hok
  split at hok
  · cases hok; exact qLe_refl _
  · split at hok
    · rename_i n heq
      cases hok
      exact h1 _ heq
    · split at hok
      · rename_i ms heq
        cases hok
        exact foldl_qAdd_nonneg (fun m => toNum (jor (getD m ("size")) (JVal.num (intJQ 0))))
          ms (intJQ 0) (qLe_refl _) (h2 ms heq)
      · split at hok
        · nomatch hok
        · split at hok
          · rename_i as heq
            split at hok
            · split at hok
              · nomatch hok
              · rename_i l hEx
                cases hok
                refine qSum_nonneg l ?_
                intro x hx
                obtain ⟨a2, ha2, hq2⟩ := mem_right_of_forall₂ (exMapM_ok_forall₂ hEx) hx
                exact assetContrib_ok_nonneg (h3 as heq a2 ha2) hq2
            · cases hok; exact qLe_refl _
          · cases hok; exact qLe_refl _

/-- C8 witness: under the nonnegativity hypotheses, a chunk with explicit
size 500 resolves to a nonnegative value. -/
theorem chunkSize_nonneg_C8_witness :
    calculateChunkSize chunkC8w (JVal.obj []) = Except.ok (intJQ 500) ∧
    qLe (intJQ 0) (intJQ 500) := by
  refine ⟨rfl, ?_⟩
  refine chunkSize_nonneg_C8 chunkC8w (JVal.obj []) (intJQ 500) ?_ ?_ ?_ rfl
  · intro n h
    rw [show getD chunkC8w ("size") = JVal.num (intJQ 500) from rfl] at h
    cases h
    decide
  · intro ms h
    rw [show getD chunkC8w ("modules") = JVal.undefined from rfl] at h
    nomatch h
  · intro as h
    rw [show getD (JVal.obj []) ("assets") = JVal.undefined from rfl] at h
    nomatch h

/-- C2 counterexample: a document whose `modules` field is the number 5 does
not yield the degenerate value — the `Array.isArray` guard silently skips the
modules pass and a normal report is produced. -/
theorem modules_non_sequence_C2_cex :
    mIsFailed (extractMetrics docC2) = false ∧ mIsReport (extractMetrics docC2) = true :=
  ⟨by decide, by decide⟩

/-- C2 (amended): a document whose `modules` field is present but not a
sequence is tolerated, not rejected: the modules pass is skipped, so any
successfully produced report has `moduleCount = 0` and no largest-modules
entries; extraction does not throw on account of the malformed field. -/
theorem modules_non_sequence_skipped_C2 (s : JVal)
    (hna : (getD s ("modules")).isArr = false)
    (hr : mIsReport (extractMetrics s) = true) :
    mModuleCount (extractMetrics s) = 0 ∧ mLargestModules (extractMetrics s) = [] := by
  cases hE : extractMetrics s with
  | failed => rw [hE] at hr; nomatch hr
  | report m =>
      obtain ⟨a, mo, ch, hA, hMo, hCh, hmk⟩ := extract_report_eq hE
      have hmo : mo = (0, []) := by
        unfold modulesPass at hMo
        split at hMo
        · rename_i xs heq
          rw [heq] at hna
          nomatch hna
        · cases hMo; rfl
      subst hmk
      subst hmo
      exact ⟨rfl, rfl⟩

/-- C2 witness: the amended behaviour at the concrete document `{modules: 5}`. -/
theorem modules_non_sequence_skipped_C2_witness :
    mModuleCount (extractMetrics docC2) = 0 ∧ mLargestModules (extractMetrics docC2) = [] :=
  modules_non_sequence_skipped_C2 docC2 rfl (by decide)

/-- C4: the Module Classifier maps the empty path to `"unknown"`, the claimed
example paths to `"npm:lodash"` and `"typescript"`, and every path containing
the substring `"node_modules"` to `"npm:"` followed by the first
`/`-separated segment after the marker (so the `"npm"` fallback for an
unextractable package name is never exercised — the extraction always
produces a, possibly empty, segment). -/
theorem getModuleType_spec_C4 :
    getModuleType ("") = "unknown" ∧
    getModuleType ("src/app/node_modules/lodash/index.js") = "npm:lodash" ∧
    getModuleType ("src/components/Button.tsx") = "typescript" ∧
    (∀ p : String, strContains p ("node_modules") = true →
      getModuleType p = "npm:" ++ packageAfterMarker p) := by
  refine ⟨by decide, by decide, by decide, fun p hc => ?_⟩
  have hne : (p == "") = false := by
    cases hpe : p == ""
    · rfl
    · exfalso
      have hp : p = "" := eq_of_beq hpe
      rw [hp] at hc
      exact absurd hc (by decide)
  unfold getModuleType
  rw [hne]
  simp only [Bool.false_eq_true, if_false, hc, if_true]
  unfold strContains at hc
  cases hi : strIdxOf p ("node_modules") with
  | none => rw [hi] at hc; nomatch hc
  | some i =>
      unfold packageAfterMarker
      rw [hi]

/-- C4 witness: the universal `node_modules` clause applied at the example
path, with its hypothesis discharged by computation. -/
theorem getModuleType_spec_C4_witness :
    getModuleType ("src/app/node_modules/lodash/index.js") =
      "npm:" ++ packageAfterMarker ("src/app/node_modules/lodash/index.js") :=
  getModuleType_spec_C4.2.2.2 ("src/app/node_modules/lodash/index.js") (by decide)

/-- C5 counterexample: at a document with `totalSize = 1000`, two chunks, a
`main` entrypoint of size 0 and an `index` entrypoint of size 400, the
claimed formula (main-bundle size taken from `main` because it exists) gives
100, but the engine's `||` falls through the falsy 0 size to `index` and
yields 60. -/
theorem cacheEfficiency_C5_cex :
    qLt (intJQ 0) (mTotalSize (extractMetrics docC5x)) ∧
    1 < mChunkCount (extractMetrics docC5x) ∧
    qEq (mCacheEff (extractMetrics docC5x))
      (qMin (qMul (qDiv (qSub (mTotalSize (extractMetrics docC5x))
            (claimMainBundleSize (mEntrypoints (extractMetrics docC5x))))
          (mTotalSize (extractMetrics docC5x))) (intJQ 100)) (intJQ 100)) = false ∧
    qEq (mCacheEff (extractMetrics docC5x)) (intJQ 60) = true :=
  ⟨by decide, by decide, by decide, by decide⟩

/-- C5 (amended): in every successfully extracted report,
`performance.cacheEfficiency` equals
`min(((totalSize - mainBundleSize) / totalSize) * 100, 100)` when
`totalSize > 0` and `chunkCount > 1`, and 0 otherwise — where
`mainBundleSize` follows the code's `||` chain: the size of the `main`
entrypoint when that size is nonzero, else the size of the `index`
entrypoint, else 0. -/
theorem cacheEfficiency_formula_C5 (s : JVal)
    (hr : mIsReport (extractMetrics s) = true) :
    mCacheEff (extractMetrics s) =
      (if qLt (intJQ 0) (mTotalSize (extractMetrics s)) ∧ 1 < mChunkCount (extractMetrics s) then
         qMin (qMul (qDiv (qSub (mTotalSize (extractMetrics s))
               (jsMainBundleSize (mEntrypoints (extractMetrics s))))
             (mTotalSize (extractMetrics s))) (intJQ 100)) (intJQ 100)
       else intJQ 0) := by
  cases hE : extractMetrics s with
  | failed => rw [hE] at hr; nomatch hr
  | report m =>
      obtain ⟨a, mo, ch, hA, hMo, hCh, hmk⟩ := extract_report_eq hE
      subst hmk
      rfl

/-- C5 witness: the claimed scenario — totalSize 1000, two chunks, a `main`
entrypoint of size 400 — gives cache efficiency 60. -/
theorem cacheEfficiency_formula_C5_witness :
    mCacheEff (extractMetrics docC5w) =
      (if qLt (intJQ 0) (mTotalSize (extractMetrics docC5w)) ∧ 1 < mChunkCount (extractMetrics docC5w) then
         qMin (qMul (qDiv (qSub (mTotalSize (extractMetrics docC5w))
               (jsMainBundleSize (mEntrypoints (extractMetrics docC5w))))
             (mTotalSize (extractMetrics docC5w))) (intJQ 100)) (intJQ 100)
       else intJQ 0) ∧
    qEq (mCacheEff (extractMetrics docC5w)) (intJQ 60) = true :=
  ⟨cacheEfficiency_formula_C5 docC5w (by decide), by decide⟩

/-- C6 counterexample: a `chunks` sequence `[false, {id: 1, size: 2}]` has two
non-null entries, but the engine's truthiness filter drops `false`, so
`largestChunks` has length 1, not `min(10, 2)`. -/
theorem largest_lists_C6_cex :
    ¬ ((mLargestModules (extractMetrics docC6x)).length =
         min 20 (nonNullSizeGt0Count (modulesArrOf docC6x)) ∧
       List.Pairwise (fun a b : ModEntry => qLe b.size a.size)
         (mLargestModules (extractMetrics docC6x)) ∧
       (mLargestChunks (extractMetrics docC6x)).length =
         min 10 (nonNullCount (chunksArrOf docC6x)) ∧
       List.Pairwise (fun a b : ChunkEntry => qLe b.size a.size)
         (mLargestChunks (extractMetrics docC6x))) := by
  intro h
  exact absurd h.2.2.1 (by decide)

/-- C6 (amended): in every successfully extracted report, `largestModules`
has length `min(20, number of modules passing the engine's truthy-and-size>0
filter)` and is sorted non-increasing by module size, and `largestChunks` has
length `min(10, number of truthy chunk entries)` — truthiness, not mere
non-nullness: `0`, `""`, `false` and `undefined` entries are dropped too —
and is sorted non-increasing by resolved chunk size. -/
theorem largest_lists_sorted_C6 (s : JVal)
    (hr : mIsReport (extractMetrics s) = true) :
    (mLargestModules (extractMetrics s)).length = min 20 (validModCount s) ∧
    List.Pairwise (fun a b : ModEntry => qLe b.size a.size) (mLargestModules (extractMetrics s)) ∧
    (mLargestChunks (extractMetrics s)).length = min 10 (truthyChunkCount s) ∧
    List.Pairwise (fun a b : ChunkEntry => qLe b.size a.size) (mLargestChunks (extractMetrics s)) := by
  cases hE : extractMetrics s with
  | failed => rw [hE] at hr; nomatch hr
  | report m =>
      obtain ⟨a, mo, ch, hA, hMo, hCh, hmk⟩ := extract_report_eq hE
      obtain ⟨hm1, hm2, hm3⟩ := modulesPass_ok hMo
      obtain ⟨hc1, hc2, hc3⟩ := chunksPass_ok hCh
      subst hmk
      exact ⟨hm2, hm3, hc2, hc3⟩

/-- C6 witness: the amended statement at a concrete document with two valid
modules and two truthy chunks. -/
theorem largest_lists_sorted_C6_witness :
    (mLargestModules (extractMetrics docC67w)).length = min 20 (validModCount docC67w) ∧
    List.Pairwise (fun a b : ModEntry => qLe b.size a.size) (mLargestModules (extractMetrics docC67w)) ∧
    (mLargestChunks (extractMetrics docC67w)).length = min 10 (truthyChunkCount docC67w) ∧
    List.Pairwise (fun a b : ChunkEntry => qLe b.size a.size) (mLargestChunks (extractMetrics docC67w)) :=
  largest_lists_sorted_C6 docC67w (by decide)

/-- C7 counterexample: with `assets = [null, {…}]` the engine's `assetCount`
is the raw length 2, not the non-null count 1 (and a chunks entry `0` is
non-null but not counted). -/
theorem counts_C7_cex :
    ¬ (mModuleCount (extractMetrics docC7x) = nonNullSizeGt0Count (modulesArrOf docC7x) ∧
       mChunkCount (extractMetrics docC7x) = nonNullCount (chunksArrOf docC7x) ∧
       mAssetCount (extractMetrics docC7x) = nonNullCount (assetsArrOf docC7x)) := by
  intro h
  exact absurd h.2.2 (by decide)

/-- C7 (amended): in every successfully extracted report, `moduleCount` is the
number of modules passing the engine's filter (truthy with `size > 0`),
`chunkCount` is the number of truthy chunk entries, and `assetCount` is the
raw length of the `assets` sequence, null entries included. -/
theorem counts_C7 (s : JVal) (hr : mIsReport (extractMetrics s) = true) :
    mModuleCount (extractMetrics s) = validModCount s ∧
    mChunkCount (extractMetrics s) = truthyChunkCount s ∧
    mAssetCount (extractMetrics s) = assetsLenOf s := by
  cases hE : extractMetrics s with
  | failed => rw [hE] at hr; nomatch hr
  | report m =>
      obtain ⟨a, mo, ch, hA, hMo, hCh, hmk⟩ := extract_report_eq hE
      subst hmk
      exact ⟨(modulesPass_ok hMo).1, (chunksPass_ok hCh).1, assetsPass_ok_count hA⟩

/-- C7 witness: the amended counts at a concrete document with a null asset
entry. -/
theorem counts_C7_witness :
    mModuleCount (extractMetrics docC67w) = validModCount docC67w ∧
    mChunkCount (extractMetrics docC67w) = truthyChunkCount docC67w ∧
    mAssetCount (extractMetrics docC67w) = assetsLenOf docC67w :=
  counts_C7 docC67w (by decide)
